/-
Verification of the cfg-parser core (Youngermaster/Context-Free-Grammar-Parser,
rust_version/cfg-parser/src): symbols, grammar parsing, FIRST/FOLLOW sets,
LL(1) predictive-table construction and recognition, LR(0) automaton and
SLR(1) table construction and recognition.

Shallow embedding conventions:
  * Rust `HashSet<Symbol>` / `HashSet<Item>` values are modelled as
    duplicate-free `List`s with insert-if-absent; only membership and
    cardinality are observable in the source (change detection compares
    `len()`), so list order is a deterministic stand-in for the unspecified
    hash-iteration order.  All facts proved below are order-independent.
  * Rust `HashMap` is modelled as an association list with insert-overwrite
    (`ainsert`) and first-match lookup (`alookup`).
  * Rust `String`/`&str` values are modelled as `List Char`.
  * `while changed` fixed-point loops and the recogniser loops are modelled
    with an explicit fuel parameter; fuel exhaustion is a distinguished
    outcome, never silently converted into an answer by the recognisers.
  * A Rust `panic!` site that can actually fire (the `unwrap` on the start
    symbol's FOLLOW entry, the `stack.last().unwrap()` after popping in the
    SLR(1) reducer, and the `usize` overflow of `n + 1` in `Grammar::parse`
    at `n = usize::MAX`) is modelled as an explicit `none` / `.panicked`
    outcome.  `unwrap`s whose key is provably always present (every lhs and
    every rhs nonterminal is initialised before the fixed-point loops run)
    are modelled with `getD`.
  * Whitespace is the Unicode White_Space property, as in Rust's
    `char::is_whitespace` used by `str::trim` and `str::split_whitespace`.
-/
import Mathlib

namespace CFGP

/-- Symbol of a context-free grammar; mirrors `symbol.rs::Symbol`. -/
inductive Symbol where
  | terminal (c : Char)
  | nonterminal (c : Char)
  | epsilon
  | endMarker
deriving DecidableEq, Repr

namespace Symbol

/-- `Symbol::from_char`: uppercase ASCII letters become nonterminals, `e`
becomes Epsilon, `$` becomes the end marker, everything else is a terminal. -/
def fromChar (c : Char) : Symbol :=
  if 'A' ≤ c ∧ c ≤ 'Z' then .nonterminal c
  else if c = 'e' then .epsilon
  else if c = '$' then .endMarker
  else .terminal c

/-- `Symbol::is_terminal`. -/
def isTerminal : Symbol → Bool
  | .terminal _ => true
  | _ => false

/-- `Symbol::is_nonterminal`. -/
def isNonterminal : Symbol → Bool
  | .nonterminal _ => true
  | _ => false

/-- `Symbol::is_epsilon`. -/
def isEpsilon : Symbol → Bool
  | .epsilon => true
  | _ => false

/-- `Symbol::is_end_marker`. -/
def isEndMarker : Symbol → Bool
  | .endMarker => true
  | _ => false

/-- `Display for Symbol`: the stored character, `ε` for Epsilon, `$` for the
end marker (as a character list, since strings are modelled as `List Char`). -/
def display : Symbol → List Char
  | .terminal c => [c]
  | .nonterminal c => [c]
  | .epsilon => ['ε']
  | .endMarker => ['$']

end Symbol

/-- `symbol.rs::string_to_symbols`: classify every character of the input. -/
def stringToSymbols (s : List Char) : List Symbol :=
  s.map Symbol.fromChar

/-- Abbreviation used for the concrete test strings below. -/
def str (s : String) : List Char := s.toList

/-! ### Association lists (model of `HashMap`) and duplicate-free lists
(model of `HashSet`) -/

/-- First-match lookup in an association list (model of `HashMap::get`). -/
def alookup {α β : Type} [DecidableEq α] : List (α × β) → α → Option β
  | [], _ => none
  | (k, v) :: rest, key => if k = key then some v else alookup rest key

/-- Insert-or-overwrite in an association list (model of `HashMap::insert`). -/
def ainsert {α β : Type} [DecidableEq α] (key : α) (val : β) :
    List (α × β) → List (α × β)
  | [] => [(key, val)]
  | (k, v) :: rest =>
    if k = key then (key, val) :: rest else (k, v) :: ainsert key val rest

/-- Insert-if-absent into a duplicate-free list (model of `HashSet::insert`). -/
def sinsert {α : Type} [DecidableEq α] (x : α) (l : List α) : List α :=
  if x ∈ l then l else l ++ [x]

/-- Union of duplicate-free lists (model of `HashSet::union`): fold the second
set into the first with insert-if-absent. -/
def sunion {α : Type} [DecidableEq α] (l r : List α) : List α :=
  r.foldl (fun acc x => sinsert x acc) l

/-! ### Productions and grammars (`grammar.rs`) -/

/-- A production rule `lhs → rhs`; mirrors `grammar.rs::Production`. -/
structure Production where
  lhs : Symbol
  rhs : List Symbol
deriving DecidableEq, Repr

/-- `Display for Production`: `lhs → rhs`, with an rhs of exactly `[Epsilon]`
rendered as `ε`. -/
def Production.display (p : Production) : List Char :=
  p.lhs.display ++ (' ' :: '→' :: ' ' :: []) ++
    (if p.rhs = [Symbol.epsilon] then ['ε'] else p.rhs.flatMap Symbol.display)

/-- Grammar errors, mirroring `error.rs::GrammarError` (the unused `Io` and
`ParseError` variants of the Rust enum are omitted; the core never produces
them).  String payloads are rendered with the `display` functions above; the
`InvalidFormat` payload embeds a Rust `ParseIntError` message and is
abstracted to the fixed text below. -/
inductive GrammarError where
  | invalidFormat (msg : List Char)
  | invalidProduction (line : List Char)
  | emptyInput
  | notEnoughProductions (expected actual : Nat)
  | ll1Conflict (nonterminal terminal prod1 prod2 : List Char)
  | slr1ShiftReduceConflict (state : Nat) (symbol : List Char)
  | slr1ReduceReduceConflict (state : Nat) (symbol prod1 prod2 : List Char)
deriving DecidableEq, Repr

/-- A context-free grammar; mirrors `grammar.rs::Grammar`.  The Rust
`production_map` field is represented by the `getProductions` function below
(the map's entry for `nt` is exactly the declaration-ordered sublist of
productions with that lhs). -/
structure Grammar where
  productions : List Production
  nonterminals : List Symbol
  terminals : List Symbol
  startSymbol : Symbol
deriving DecidableEq, Repr

/-- `Grammar::get_productions`: all productions for a given nonterminal in
declaration order (empty if none). -/
def Grammar.getProductions (g : Grammar) (nt : Symbol) : List Production :=
  g.productions.filter (fun p => p.lhs = nt)

/-- Rust `char::is_whitespace` as used by `str::trim` /
`str::split_whitespace`: the Unicode White_Space property
(U+0009..U+000D, U+0020, U+0085, U+00A0, U+1680, U+2000..U+200A, U+2028,
U+2029, U+202F, U+205F, U+3000). -/
def isWs (c : Char) : Bool :=
  (0x09 ≤ c.toNat && c.toNat ≤ 0x0D) || c.toNat = 0x20 || c.toNat = 0x85 ||
    c.toNat = 0xA0 || c.toNat = 0x1680 ||
    (0x2000 ≤ c.toNat && c.toNat ≤ 0x200A) || c.toNat = 0x2028 ||
    c.toNat = 0x2029 || c.toNat = 0x202F || c.toNat = 0x205F ||
    c.toNat = 0x3000

/-- Model of `str::trim`: drop whitespace from both ends. -/
def trimChars (s : List Char) : List Char :=
  ((s.dropWhile isWs).reverse.dropWhile isWs).reverse

/-- Model of `str::split("->")`: split at every non-overlapping occurrence of
the two-character separator, left to right. -/
def splitOnArrow : List Char → List Char → List (List Char)
  | [], acc => [acc.reverse]
  | '-' :: '>' :: rest, acc => acc.reverse :: splitOnArrow rest []
  | c :: rest, acc => splitOnArrow rest (c :: acc)

/-- Model of `str::split_whitespace`: maximal non-empty runs of
non-whitespace characters. -/
def splitWs : List Char → List Char → List (List Char)
  | [], acc => if acc = [] then [] else [acc.reverse]
  | c :: rest, acc =>
    if isWs c then
      if acc = [] then splitWs rest [] else acc.reverse :: splitWs rest []
    else splitWs rest (c :: acc)

/-- Value of a list of ASCII digits, `none` if empty or a non-digit occurs. -/
def digitsToNat : List Char → Option Nat
  | [] => none
  | [c] => if c.isDigit then some (c.toNat - 48) else none
  | c :: rest =>
    if c.isDigit then
      match digitsToNat rest with
      | some v => some ((c.toNat - 48) * 10 ^ rest.length + v)
      | none => none
    else none

/-- Model of `str::parse::<usize>()`: an optional leading `+`, then at least
one ASCII digit, with the 64-bit usize overflow bound. -/
def parseUsize (s : List Char) : Option Nat :=
  let digits := match s with
    | '+' :: rest => rest
    | l => l
  match digitsToNat digits with
  | some v => if v < 2 ^ 64 then some v else none
  | none => none

/-- `Grammar::parse_production_line`: exactly one `->` separator, non-empty
trimmed left side whose first character is classified into the lhs symbol,
whitespace-separated alternatives on the right, each becoming one
production. -/
def Grammar.parseProductionLine (line : List Char) :
    Except GrammarError (List Production) :=
  match splitOnArrow line [] with
  | [lhsPart, rhsPart] =>
    match trimChars lhsPart with
    | [] => .error (.invalidProduction (str "Empty left-hand side"))
    | c :: _ =>
      let lhs := Symbol.fromChar c
      .ok ((splitWs (trimChars rhsPart) []).map
        (fun alt => Production.mk lhs (stringToSymbols alt)))
  | _ => .error (.invalidProduction line)

/-- The production-line loop of `Grammar::parse`: parse each line in order,
stopping at the first error, concatenating the produced productions. -/
def Grammar.parseProductionLines : List (List Char) →
    Except GrammarError (List Production)
  | [] => .ok []
  | l :: ls =>
    match Grammar.parseProductionLine l with
    | .error e => .error e
    | .ok ps =>
      match Grammar.parseProductionLines ls with
      | .error e => .error e
      | .ok rest => .ok (ps ++ rest)

/-- `Grammar::from_productions`: fail on zero productions, otherwise derive
the nonterminal set (every lhs plus every rhs nonterminal), terminal set
(every rhs terminal) and the fixed start symbol `Nonterminal('S')`. -/
def Grammar.fromProductions (prods : List Production) :
    Except GrammarError Grammar :=
  match prods with
  | [] => .error .emptyInput
  | _ =>
    let lhsSyms := prods.foldl (fun acc p => sinsert p.lhs acc) []
    let rhsSyms := prods.foldl
      (fun acc p => p.rhs.foldl (fun a s => sinsert s a) acc) []
    let nonterminals :=
      sunion lhsSyms (rhsSyms.filter (fun s => s.isNonterminal))
    let terminals := rhsSyms.filter (fun s => s.isTerminal)
    .ok ⟨prods, nonterminals, terminals, Symbol.nonterminal 'S'⟩

/-- `Grammar::parse`: line 0 is the production-line count `n`; fail on empty
input, an unparsable count, or fewer than `n + 1` lines; parse lines
`1 ..= n`; extra trailing lines are ignored.  The source computes `n + 1` in
`usize`; when `n = usize::MAX` that addition overflows and the program panics
(arithmetic-overflow panic under debug, or the wrapped comparison followed by
the out-of-range `&lines[1..=n]` slice panic under release), modelled by the
`none` result — the function never returns a value there. -/
def Grammar.parse (lines : List (List Char)) :
    Option (Except GrammarError Grammar) :=
  match lines with
  | [] => some (.error .emptyInput)
  | l0 :: rest =>
    match parseUsize (trimChars l0) with
    | none => some (.error (.invalidFormat (str "Invalid number")))
    | some n =>
      if n + 1 < 2 ^ 64 then
        if (l0 :: rest).length < n + 1 then
          some (.error (.notEnoughProductions n ((l0 :: rest).length - 1)))
        else
          match Grammar.parseProductionLines (rest.take n) with
          | .error e => some (.error e)
          | .ok prods => some (Grammar.fromProductions prods)
      else none

/-! ### FIRST and FOLLOW sets (`first_follow.rs`) -/

/-- Fuel bound for the `while changed` fixed-point loops; each pass either
grows a set or is the last, and the sets live in a finite alphabet, so any
bound at least the total set capacity reaches the fixed point. -/
def setFuel : Nat := 1000

/-- Inner helper of `first_of_string`: walk the sequence, accumulating
`FIRST(Xᵢ) \ set-of-epsilon` while epsilon stays derivable, and add epsilon if
the whole sequence is nullable.  Absent map entries default to the empty set
(`unwrap_or_default` in the source). -/
def firstOfStringLoop (fs : List (Symbol × List Symbol)) :
    List Symbol → List Symbol → List Symbol
  | [], acc => sinsert Symbol.epsilon acc
  | x :: rest, acc =>
    let fx := (alookup fs x).getD []
    let acc' := fx.foldl (fun a s => if s.isEpsilon then a else sinsert s a) acc
    if Symbol.epsilon ∈ fx then firstOfStringLoop fs rest acc' else acc'

/-- `first_follow.rs::first_of_string`. -/
def firstOfString (fs : List (Symbol × List Symbol)) (symbols : List Symbol) :
    List Symbol :=
  firstOfStringLoop fs symbols []

/-- Initial FIRST map: each terminal maps to itself, Epsilon and EndMarker to
themselves, then every nonterminal is set to the empty set (a later insert
overwrites an earlier one, as `HashMap::insert` does). -/
def firstSetsInit (g : Grammar) : List (Symbol × List Symbol) :=
  let t := g.terminals.foldl (fun acc s => ainsert s [s] acc) []
  let t := ainsert Symbol.epsilon [Symbol.epsilon] t
  let t := ainsert Symbol.endMarker [Symbol.endMarker] t
  g.nonterminals.foldl (fun acc nt => ainsert nt [] acc) t

/-- One full pass of the FIRST fixed-point loop over all productions in
declaration order; later productions in the pass see earlier updates, and the
changed flag records whether any set grew (`len()` comparison in the
source). -/
def firstPass (g : Grammar) (sets : List (Symbol × List Symbol)) :
    List (Symbol × List Symbol) × Bool :=
  g.productions.foldl
    (fun acc p =>
      let current := (alookup acc.1 p.lhs).getD []
      let rhsFirst := firstOfString acc.1 p.rhs
      let newFirst := sunion current rhsFirst
      if newFirst.length ≠ current.length then (ainsert p.lhs newFirst acc.1, true)
      else acc)
    (sets, false)

/-- The `while changed` loop of `compute_first_sets`, with fuel. -/
def firstLoop (g : Grammar) : Nat → List (Symbol × List Symbol) →
    List (Symbol × List Symbol)
  | 0, sets => sets
  | fuel + 1, sets =>
    let res := firstPass g sets
    if res.2 then firstLoop g fuel res.1 else res.1

/-- `first_follow.rs::compute_first_sets`. -/
def computeFirstSets (g : Grammar) : List (Symbol × List Symbol) :=
  firstLoop g setFuel (firstSetsInit g)

/-- Initial FOLLOW map: every nonterminal mapped to the empty set. -/
def followSetsInit (g : Grammar) : List (Symbol × List Symbol) :=
  g.nonterminals.foldl (fun acc nt => ainsert nt [] acc) []

/-- `new_follow` before the FOLLOW(lhs) union: the current `FOLLOW(sym)` plus
`FIRST(β)` minus epsilon. -/
def followAddFirst (fs : List (Symbol × List Symbol)) (beta : List Symbol)
    (current : List Symbol) : List Symbol :=
  (firstOfString fs beta).foldl
    (fun a s => if s.isEpsilon then a else sinsert s a) current

/-- The full `new_follow` computed for the nonterminal `sym` with suffix `β`
in a production of `lhs`: add `FIRST(β)` minus epsilon, and if `β` is empty
or nullable also the current `FOLLOW(lhs)`. -/
def followNewSet (fs : List (Symbol × List Symbol)) (lhs sym : Symbol)
    (beta : List Symbol) (sets : List (Symbol × List Symbol)) : List Symbol :=
  if beta = [] ∨ Symbol.epsilon ∈ firstOfString fs beta then
    sunion (followAddFirst fs beta ((alookup sets sym).getD []))
      ((alookup sets lhs).getD [])
  else followAddFirst fs beta ((alookup sets sym).getD [])

/-- Processing one rhs position in the FOLLOW pass: nonterminals get their
`new_follow` recorded (with the changed flag) when it grew; other symbols are
skipped. -/
def followUpdate (fs : List (Symbol × List Symbol)) (lhs sym : Symbol)
    (beta : List Symbol) (acc : List (Symbol × List Symbol) × Bool) :
    List (Symbol × List Symbol) × Bool :=
  if sym.isNonterminal then
    if (followNewSet fs lhs sym beta acc.1).length ≠
        ((alookup acc.1 sym).getD []).length then
      (ainsert sym (followNewSet fs lhs sym beta acc.1) acc.1, true)
    else acc
  else acc

/-- The per-production position walk of the FOLLOW fixed-point pass. -/
def followStep (fs : List (Symbol × List Symbol)) (lhs : Symbol) :
    List Symbol → List (Symbol × List Symbol) × Bool →
    List (Symbol × List Symbol) × Bool
  | [], acc => acc
  | sym :: beta, acc => followStep fs lhs beta (followUpdate fs lhs sym beta acc)

/-- One full pass of the FOLLOW fixed-point loop over all productions. -/
def followPass (g : Grammar) (fs : List (Symbol × List Symbol))
    (sets : List (Symbol × List Symbol)) : List (Symbol × List Symbol) × Bool :=
  g.productions.foldl (fun acc p => followStep fs p.lhs p.rhs acc) (sets, false)

/-- The `while changed` loop of `compute_follow_sets`, with fuel. -/
def followLoop (g : Grammar) (fs : List (Symbol × List Symbol)) :
    Nat → List (Symbol × List Symbol) → List (Symbol × List Symbol)
  | 0, sets => sets
  | fuel + 1, sets =>
    let res := followPass g fs sets
    if res.2 then followLoop g fs fuel res.1 else res.1

/-- `first_follow.rs::compute_follow_sets`.  The source does
`follow_sets.get_mut(&start_symbol).unwrap()` to seed EndMarker into
`FOLLOW(start)`; that `unwrap` panics exactly when the start symbol is not
among the grammar's nonterminals, modelled by the `none` result. -/
def computeFollowSets (g : Grammar) (fs : List (Symbol × List Symbol)) :
    Option (List (Symbol × List Symbol)) :=
  let init := followSetsInit g
  match alookup init g.startSymbol with
  | none => none
  | some s =>
    some (followLoop g fs setFuel
      (ainsert g.startSymbol (sinsert Symbol.endMarker s) init))

/-! ### The LL(1) builder and recogniser (`ll1.rs`) -/

/-- `ll1.rs::LL1Parser`. -/
structure LL1Parser where
  grammar : Grammar
  table : List ((Symbol × Symbol) × Production)
  firstSets : List (Symbol × List Symbol)
  followSets : List (Symbol × List Symbol)
deriving DecidableEq, Repr

/-- Recording one production into one LL(1) table cell, exactly as both
conflict checks in `LL1Parser::build` do it: if the cell holds anything
(the source never compares the occupant with the candidate), fail with an
`LL1Conflict` naming the occupant as `prod1`; otherwise store the
production. -/
def ll1RecordCell (table : List ((Symbol × Symbol) × Production))
    (key : Symbol × Symbol) (prod : Production) :
    Except GrammarError (List ((Symbol × Symbol) × Production)) :=
  match alookup table key with
  | some existing =>
    .error (.ll1Conflict key.1.display key.2.display existing.display prod.display)
  | none => .ok (ainsert key prod table)

/-- The FIRST(α) loop of `LL1Parser::build`: record the production at
`(lhs, t)` for every non-epsilon `t` in the given set. -/
def ll1RecordFirst (lhs : Symbol) (prod : Production) :
    List Symbol → List ((Symbol × Symbol) × Production) →
    Except GrammarError (List ((Symbol × Symbol) × Production))
  | [], table => .ok table
  | s :: rest, table =>
    if s.isEpsilon then ll1RecordFirst lhs prod rest table
    else
      match ll1RecordCell table (lhs, s) prod with
      | .error e => .error e
      | .ok t => ll1RecordFirst lhs prod rest t

/-- The FOLLOW(lhs) loop of `LL1Parser::build` (entered when epsilon is in
FIRST(α)): record the production at `(lhs, b)` for every `b` in the set. -/
def ll1RecordFollow (lhs : Symbol) (prod : Production) :
    List Symbol → List ((Symbol × Symbol) × Production) →
    Except GrammarError (List ((Symbol × Symbol) × Production))
  | [], table => .ok table
  | s :: rest, table =>
    match ll1RecordCell table (lhs, s) prod with
    | .error e => .error e
    | .ok t => ll1RecordFollow lhs prod rest t

/-- The production loop of `LL1Parser::build`.  A missing FOLLOW entry
defaults to the empty set (`unwrap_or_default` in the source). -/
def ll1BuildLoop (first follow : List (Symbol × List Symbol)) :
    List Production → List ((Symbol × Symbol) × Production) →
    Except GrammarError (List ((Symbol × Symbol) × Production))
  | [], table => .ok table
  | p :: rest, table =>
    let firstAlpha := firstOfString first p.rhs
    match ll1RecordFirst p.lhs p firstAlpha table with
    | .error e => .error e
    | .ok t1 =>
      if Symbol.epsilon ∈ firstAlpha then
        match ll1RecordFollow p.lhs p ((alookup follow p.lhs).getD []) t1 with
        | .error e => .error e
        | .ok t2 => ll1BuildLoop first follow rest t2
      else ll1BuildLoop first follow rest t1

/-- `LL1Parser::build`. -/
def LL1Parser.build (g : Grammar) (first follow : List (Symbol × List Symbol)) :
    Except GrammarError LL1Parser :=
  match ll1BuildLoop first follow g.productions [] with
  | .error e => .error e
  | .ok table => .ok ⟨g, table, first, follow⟩

/-- The `while` loop of `LL1Parser::parse`; the stack is a list with its head
as the Rust `Vec`'s top, the input is the unconsumed suffix of
`symbols ++ end-marker`.  `none` is fuel exhaustion. -/
def ll1ParseLoop (table : List ((Symbol × Symbol) × Production)) :
    Nat → List Symbol → List Symbol → Option Bool
  | 0, _, _ => none
  | _ + 1, [], input => some input.isEmpty
  | _ + 1, _ :: _, [] => some false
  | fuel + 1, top :: stackRest, cur :: inputRest =>
    if top = cur then ll1ParseLoop table fuel stackRest inputRest
    else if top.isNonterminal then
      match alookup table (top, cur) with
      | some prod =>
        let push := if prod.rhs = [Symbol.epsilon] then [] else prod.rhs
        ll1ParseLoop table fuel (push ++ stackRest) (cur :: inputRest)
      | none => some false
    else some false

/-- `LL1Parser::parse`: classify the input, append the end marker, start from
the stack `[start, $]` (start on top). -/
def LL1Parser.parse (p : LL1Parser) (fuel : Nat) (input : List Char) :
    Option Bool :=
  ll1ParseLoop p.table fuel [p.grammar.startSymbol, Symbol.endMarker]
    (stringToSymbols input ++ [Symbol.endMarker])

/-! ### The LR(0) automaton, SLR(1) builder and recogniser (`slr1.rs`) -/

/-- An LR(0) item; mirrors `slr1.rs::Item`. -/
structure Item where
  production : Production
  dotPosition : Nat
deriving DecidableEq, Repr

/-- `Item::symbol_after_dot`. -/
def Item.symbolAfterDot (it : Item) : Option Symbol :=
  it.production.rhs[it.dotPosition]?

/-- `Item::is_reduce_item`: the dot position is at least the rhs length. -/
def Item.isReduceItem (it : Item) : Bool :=
  it.production.rhs.length ≤ it.dotPosition

/-- An SLR(1) action; mirrors `slr1.rs::Action`. -/
inductive Action where
  | shift (next : Nat)
  | reduce (production : Production)
  | accept
deriving DecidableEq, Repr

/-- Fuel bound for the closure fixed point and the automaton worklist; both
are bounded by the finite item alphabet of the grammar. -/
def automatonFuel : Nat := 1000

/-- Adding `[X → •γ]` for every production of `X` during closure, with the
insert-if-absent/changed bookkeeping of the source. -/
def closureInsertProds (prods : List Production) (acc : List Item × Bool) :
    List Item × Bool :=
  prods.foldl
    (fun a p =>
      let it : Item := ⟨p, 0⟩
      if it ∈ a.1 then a else (a.1 ++ [it], true))
    acc

/-- One pass of `SLR1Parser::closure`: iterate a snapshot of the current
item set, expanding every nonterminal found right after a dot. -/
def closurePass (g : Grammar) (snapshot res : List Item) : List Item × Bool :=
  snapshot.foldl
    (fun acc it =>
      match it.symbolAfterDot with
      | some sym =>
        if sym.isNonterminal then closureInsertProds (g.getProductions sym) acc
        else acc
      | none => acc)
    (res, false)

/-- The `while changed` loop of `SLR1Parser::closure`, with fuel. -/
def closureLoop (g : Grammar) : Nat → List Item → List Item
  | 0, res => res
  | fuel + 1, res =>
    let step := closurePass g res res
    if step.2 then closureLoop g fuel step.1 else step.1

/-- `SLR1Parser::closure`. -/
def closureFn (g : Grammar) (items : List Item) : List Item :=
  closureLoop g automatonFuel items

/-- `SLR1Parser::goto`: advance the dot over the given symbol in every item
that has it right after the dot, then close. -/
def gotoFn (g : Grammar) (items : List Item) (symbol : Symbol) : List Item :=
  let moved := items.foldl
    (fun acc it =>
      match it.symbolAfterDot with
      | some sym =>
        if sym = symbol then sinsert ⟨it.production, it.dotPosition + 1⟩ acc
        else acc
      | none => acc)
    []
  closureFn g moved

/-- The per-state symbol collection of `build_lr0_automaton`: all distinct
symbols occurring right after a dot. -/
def afterDotSymbols (items : List Item) : List Symbol :=
  items.foldl
    (fun acc it =>
      match it.symbolAfterDot with
      | some sym => sinsert sym acc
      | none => acc)
    []

/-- Item-set equality is set equality (`HashSet == HashSet` in the source),
not list equality. -/
def itemSetEq (a b : List Item) : Bool :=
  a.all (fun it => it ∈ b) && b.all (fun it => it ∈ a)

/-- `states.iter().position(|s| s == &next_state)` with set equality. -/
def findStateIdx : List (List Item) → List Item → Nat → Option Nat
  | [], _, _ => none
  | s :: rest, target, i =>
    if itemSetEq s target then some i else findStateIdx rest target (i + 1)

/-- Processing one shiftable symbol of one worklist state: compute the goto
set, drop it if empty, otherwise reuse a set-equal existing state or append a
new one (enqueueing it), and record the transition. -/
def automatonStep (g : Grammar) (id : Nat) (state : List Item)
    (acc : List (List Item) × List ((Nat × Symbol) × Nat) × List Nat)
    (sym : Symbol) :
    List (List Item) × List ((Nat × Symbol) × Nat) × List Nat :=
  let next := gotoFn g state sym
  if next = [] then acc
  else
    match findStateIdx acc.1 next 0 with
    | some j => (acc.1, ainsert (id, sym) j acc.2.1, acc.2.2)
    | none =>
      (acc.1 ++ [next], ainsert (id, sym) acc.1.length acc.2.1,
        acc.2.2 ++ [acc.1.length])

/-- The worklist loop of `build_lr0_automaton` (`VecDeque` processed
front-to-back), with fuel.  A worklist id is always in bounds; the `getD`
default is never taken. -/
def automatonLoop (g : Grammar) :
    Nat → List (List Item) → List ((Nat × Symbol) × Nat) → List Nat →
    List (List Item) × List ((Nat × Symbol) × Nat)
  | 0, states, transMap, _ => (states, transMap)
  | _ + 1, states, transMap, [] => (states, transMap)
  | fuel + 1, states, transMap, id :: queue =>
    let state := (states[id]?).getD []
    let step := (afterDotSymbols state).foldl (automatonStep g id state)
      (states, transMap, queue)
    automatonLoop g fuel step.1 step.2.1 step.2.2

/-- `SLR1Parser::build_lr0_automaton`: state 0 is the closure of the
augmented start item. -/
def buildLR0Automaton (g : Grammar) (startProduction : Production) :
    List (List Item) × List ((Nat × Symbol) × Nat) :=
  automatonLoop g automatonFuel [closureFn g [⟨startProduction, 0⟩]] [] [0]

/-- The shift-recording step of `build_tables`: any already-occupied cell is
reported as a Shift/Reduce conflict. -/
def recordShift (tbl : List ((Nat × Symbol) × Action)) (key : Nat × Symbol)
    (next : Nat) : Except GrammarError (List ((Nat × Symbol) × Action)) :=
  if (alookup tbl key).isSome then
    .error (.slr1ShiftReduceConflict key.1 key.2.display)
  else .ok (ainsert key (Action.shift next) tbl)

/-- The reduce-recording step of `build_tables`: an empty cell takes the
Reduce, an existing Shift is a Shift/Reduce conflict, an existing Reduce is a
Reduce/Reduce conflict, and an existing Accept is silently kept. -/
def recordReduce (tbl : List ((Nat × Symbol) × Action)) (key : Nat × Symbol)
    (prod : Production) : Except GrammarError (List ((Nat × Symbol) × Action)) :=
  match alookup tbl key with
  | none => .ok (ainsert key (Action.reduce prod) tbl)
  | some (Action.shift _) =>
    .error (.slr1ShiftReduceConflict key.1 key.2.display)
  | some (Action.reduce other) =>
    .error (.slr1ReduceReduceConflict key.1 key.2.display other.display
      prod.display)
  | some Action.accept => .ok tbl

/-- The FOLLOW loop of an ordinary reduce item in `build_tables`. -/
def recordReduceAll (stateId : Nat) (prod : Production) :
    List Symbol → List ((Nat × Symbol) × Action) →
    Except GrammarError (List ((Nat × Symbol) × Action))
  | [], tbl => .ok tbl
  | s :: rest, tbl =>
    match recordReduce tbl (stateId, s) prod with
    | .error e => .error e
    | .ok t => recordReduceAll stateId prod rest t

/-- Handling of one item of one state in `build_tables`: a non-reduce item
with a terminal or end marker after the dot records a Shift along the
existing transition; a reduce item of the augmented start overwrites the
`(state, $)` cell with Accept unconditionally; any other reduce item records
a Reduce on every symbol of `FOLLOW(lhs)` (missing entries default to the
empty set, as `unwrap_or_default` does). -/
def tableForItem (transMap : List ((Nat × Symbol) × Nat))
    (follow : List (Symbol × List Symbol)) (augStart : Symbol) (stateId : Nat)
    (tbl : List ((Nat × Symbol) × Action)) (it : Item) :
    Except GrammarError (List ((Nat × Symbol) × Action)) :=
  if ¬ it.isReduceItem then
    match it.symbolAfterDot with
    | some sym =>
      if sym.isTerminal || sym.isEndMarker then
        match alookup transMap (stateId, sym) with
        | some next => recordShift tbl (stateId, sym) next
        | none => .ok tbl
      else .ok tbl
    | none => .ok tbl
  else
    if it.production.lhs = augStart then
      .ok (ainsert (stateId, Symbol.endMarker) Action.accept tbl)
    else
      recordReduceAll stateId it.production
        ((alookup follow it.production.lhs).getD []) tbl

/-- The item loop of `build_tables` for one state. -/
def tableForItems (transMap : List ((Nat × Symbol) × Nat))
    (follow : List (Symbol × List Symbol)) (augStart : Symbol) (stateId : Nat) :
    List Item → List ((Nat × Symbol) × Action) →
    Except GrammarError (List ((Nat × Symbol) × Action))
  | [], tbl => .ok tbl
  | it :: rest, tbl =>
    match tableForItem transMap follow augStart stateId tbl it with
    | .error e => .error e
    | .ok t => tableForItems transMap follow augStart stateId rest t

/-- The state loop of `build_tables` (states enumerated in index order). -/
def tableForStates (transMap : List ((Nat × Symbol) × Nat))
    (follow : List (Symbol × List Symbol)) (augStart : Symbol) :
    Nat → List (List Item) → List ((Nat × Symbol) × Action) →
    Except GrammarError (List ((Nat × Symbol) × Action))
  | _, [], tbl => .ok tbl
  | stateId, st :: rest, tbl =>
    match tableForItems transMap follow augStart stateId st tbl with
    | .error e => .error e
    | .ok t => tableForStates transMap follow augStart (stateId + 1) rest t

/-- The GOTO table of `build_tables`: the source scans, for every state, all
transitions leaving it on a nonterminal; the combined effect is the
nonterminal-keyed restriction of the transition map. -/
def buildGotoTable (transMap : List ((Nat × Symbol) × Nat)) :
    List ((Nat × Symbol) × Nat) :=
  transMap.foldl
    (fun gt e => if e.1.2.isNonterminal then ainsert e.1 e.2 gt else gt) []

/-- `slr1.rs::SLR1Parser`. -/
structure SLR1Parser where
  grammar : Grammar
  augmentedStart : Symbol
  states : List (List Item)
  actionTable : List ((Nat × Symbol) × Action)
  gotoTable : List ((Nat × Symbol) × Nat)
deriving DecidableEq, Repr

/-- `SLR1Parser::build`: augment with `S' → S` (the augmented start is the
`Nonterminal` of the ASCII apostrophe, character 39, as in the source), build
the LR(0) automaton, then the ACTION/GOTO tables. -/
def SLR1Parser.build (g : Grammar) (follow : List (Symbol × List Symbol)) :
    Except GrammarError SLR1Parser :=
  let augStart := Symbol.nonterminal (Char.ofNat 39)
  let startProduction : Production := ⟨augStart, [g.startSymbol]⟩
  let auto := buildLR0Automaton g startProduction
  match tableForStates auto.2 follow augStart 0 auto.1 [] with
  | .error e => .error e
  | .ok actionTable =>
    .ok ⟨g, augStart, auto.1, actionTable, buildGotoTable auto.2⟩

/-- Outcome of a fuelled run of the SLR(1) recogniser loop: a returned
boolean, the `stack.last().unwrap()` panic, or fuel exhaustion. -/
inductive ParseOutcome where
  | ok (accepted : Bool)
  | panicked
  | outOfFuel
deriving DecidableEq, Repr

/-- The `loop` of `SLR1Parser::parse`: return false when the cursor has run
past the input, else act on `ACTION[(top state, current symbol)]`; a Reduce
pops `len(rhs)` entries (zero for the `[Epsilon]` rhs) from both stacks and
follows GOTO from the new top.  The two `stack.last().unwrap()` sites are the
`.panicked` branches. -/
def slrParseLoop (action : List ((Nat × Symbol) × Action))
    (goto : List ((Nat × Symbol) × Nat)) :
    Nat → List Nat → List Symbol → List Symbol → ParseOutcome
  | 0, _, _, _ => .outOfFuel
  | fuel + 1, stack, symStack, input =>
    match input with
    | [] => .ok false
    | cur :: rest =>
      match stack with
      | [] => .panicked
      | s :: _ =>
        match alookup action (s, cur) with
        | some Action.accept => .ok true
        | some (Action.shift next) =>
          slrParseLoop action goto fuel (next :: stack) (cur :: symStack) rest
        | some (Action.reduce prod) =>
          let rhsLen := if prod.rhs = [Symbol.epsilon] then 0 else prod.rhs.length
          let stack' := stack.drop rhsLen
          let symStack' := symStack.drop rhsLen
          match stack' with
          | [] => .panicked
          | s2 :: _ =>
            match alookup goto (s2, prod.lhs) with
            | some next =>
              slrParseLoop action goto fuel (next :: stack') (prod.lhs :: symStack')
                (cur :: rest)
            | none => .ok false
        | none => .ok false

/-- `SLR1Parser::parse`: classify the input, append `$`, start from state
stack `[0]` and an empty symbol stack. -/
def SLR1Parser.parse (p : SLR1Parser) (fuel : Nat) (input : List Char) :
    ParseOutcome :=
  slrParseLoop p.actionTable p.gotoTable fuel [0] []
    (stringToSymbols input ++ [Symbol.endMarker])

/-! ### Concrete grammars used by the claims -/

/-- Unwrap a grammar parse known to succeed (junk default otherwise). -/
def getGrammar (r : Option (Except GrammarError Grammar)) : Grammar :=
  ((r.getD (.error .emptyInput)).toOption).getD ⟨[], [], [], Symbol.nonterminal 'S'⟩

/-- Unwrap an LL(1) build known to succeed (junk default otherwise). -/
def getLL1 (r : Except GrammarError LL1Parser) : LL1Parser :=
  r.toOption.getD ⟨⟨[], [], [], Symbol.nonterminal 'S'⟩, [], [], []⟩

/-- Unwrap an SLR(1) build known to succeed (junk default otherwise). -/
def getSLR (r : Except GrammarError SLR1Parser) : SLR1Parser :=
  r.toOption.getD ⟨⟨[], [], [], Symbol.nonterminal 'S'⟩, Symbol.endMarker, [], [], []⟩

/-- The grammar text `S -> AB / A -> aA d / B -> bBc e` (LL(1) and, per the
spec, also SLR(1)). -/
def exLines1 : List (List Char) :=
  [str "3", str "S -> AB", str "A -> aA d", str "B -> bBc e"]

def exGrammar1 : Grammar := getGrammar (Grammar.parse exLines1)

def exFirst1 : List (Symbol × List Symbol) := computeFirstSets exGrammar1

def exFollow1 : List (Symbol × List Symbol) :=
  (computeFollowSets exGrammar1 exFirst1).getD []

def exLL1 : LL1Parser := getLL1 (LL1Parser.build exGrammar1 exFirst1 exFollow1)

def exSLR1 : SLR1Parser := getSLR (SLR1Parser.build exGrammar1 exFollow1)

/-- The expression grammar `S -> S+T T / T -> T*F F / F -> (S) i`
(SLR(1) but not LL(1)). -/
def exLines2 : List (List Char) :=
  [str "3", str "S -> S+T T", str "T -> T*F F", str "F -> (S) i"]

def exGrammar2 : Grammar := getGrammar (Grammar.parse exLines2)

def exFirst2 : List (Symbol × List Symbol) := computeFirstSets exGrammar2

def exFollow2 : List (Symbol × List Symbol) :=
  (computeFollowSets exGrammar2 exFirst2).getD []

def exSLR2 : SLR1Parser := getSLR (SLR1Parser.build exGrammar2 exFollow2)

/-- The grammar `S -> A / A -> A b` (unguarded left recursion; neither
class). -/
def exLines3 : List (List Char) := [str "2", str "S -> A", str "A -> A b"]

def exGrammar3 : Grammar := getGrammar (Grammar.parse exLines3)

def exFirst3 : List (Symbol × List Symbol) := computeFirstSets exGrammar3

def exFollow3 : List (Symbol × List Symbol) :=
  (computeFollowSets exGrammar3 exFirst3).getD []

/-- A grammar declaring the same production `S -> a` twice. -/
def dupLines : List (List Char) := [str "1", str "S -> a a"]

def dupGrammar : Grammar := getGrammar (Grammar.parse dupLines)

def dupFirst : List (Symbol × List Symbol) := computeFirstSets dupGrammar

def dupFollow : List (Symbol × List Symbol) :=
  (computeFollowSets dupGrammar dupFirst).getD []

/-- A well-formed grammar in which the start symbol `S` occurs nowhere. -/
def noStartLines : List (List Char) := [str "1", str "A -> a"]

def noStartGrammar : Grammar := getGrammar (Grammar.parse noStartLines)

/-- A grammar on which the SLR(1) build succeeds (only because the `N → •ε`
item is not treated as a reduce item, so its Reduce/Reduce conflict with
`A → A` at `d` goes undetected) while the resulting recogniser loops forever:
`S -> AC / A -> A a / C -> ND / N -> e / D -> d`. -/
def loopLines : List (List Char) :=
  [str "5", str "S -> AC", str "A -> A a", str "C -> ND", str "N -> e",
    str "D -> d"]

def loopGrammar : Grammar := getGrammar (Grammar.parse loopLines)

def loopFirst : List (Symbol × List Symbol) := computeFirstSets loopGrammar

def loopFollow : List (Symbol × List Symbol) :=
  (computeFollowSets loopGrammar loopFirst).getD []

def loopSLR : SLR1Parser := getSLR (SLR1Parser.build loopGrammar loopFollow)

/-! ### Helper lemmas about the map and set models -/

theorem alookup_ainsert_self {α β : Type} [DecidableEq α]
    (m : List (α × β)) (k : α) (v : β) : alookup (ainsert k v m) k = some v := by
  induction m with
  | nil => simp [ainsert, alookup]
  | cons kv rest ih =>
    by_cases h : kv.1 = k <;> simp [ainsert, alookup, h, ih]

theorem alookup_ainsert_ne {α β : Type} [DecidableEq α]
    (m : List (α × β)) (k k2 : α) (v : β) (h : k2 ≠ k) :
    alookup (ainsert k v m) k2 = alookup m k2 := by
  induction m with
  | nil =>
    simp only [ainsert, alookup]
    rw [if_neg (Ne.symm h)]
  | cons kv rest ih =>
    obtain ⟨k1, v1⟩ := kv
    simp only [ainsert]
    by_cases h1 : k1 = k
    · subst h1
      rw [if_pos rfl]
      simp only [alookup]
      rw [if_neg (Ne.symm h), if_neg (Ne.symm h)]
    · rw [if_neg h1]
      simp only [alookup]
      by_cases h2 : k1 = k2
      · rw [if_pos h2, if_pos h2]
      · rw [if_neg h2, if_neg h2]
        exact ih

theorem isSome_alookup_ainsert {α β : Type} [DecidableEq α]
    (m : List (α × β)) (k k2 : α) (v : β) (h : (alookup m k).isSome) :
    (alookup (ainsert k2 v m) k).isSome := by
  by_cases hk : k = k2
  · subst hk; simp [alookup_ainsert_self]
  · rwa [alookup_ainsert_ne _ _ _ _ hk]

theorem mem_sinsert_self {α : Type} [DecidableEq α] (x : α) (l : List α) :
    x ∈ sinsert x l := by
  unfold sinsert; split <;> simp [*]

theorem mem_sinsert_of_mem {α : Type} [DecidableEq α] {x : α} {l : List α}
    (y : α) (h : x ∈ l) : x ∈ sinsert y l := by
  unfold sinsert; split <;> simp [h]

/-- Membership is preserved by any fold whose step never removes elements. -/
theorem mem_foldl_grow {α β : Type} (step : List α → β → List α)
    (hstep : ∀ acc y x, x ∈ acc → x ∈ step acc y) :
    ∀ (l : List β) (acc : List α) (x : α), x ∈ acc → x ∈ l.foldl step acc := by
  intro l
  induction l with
  | nil => intro acc x h; simpa using h
  | cons y rest ih => intro acc x h; exact ih _ _ (hstep acc y x h)

theorem mem_sunion_left {α : Type} [DecidableEq α] {x : α} {l : List α}
    (r : List α) (h : x ∈ l) : x ∈ sunion l r :=
  mem_foldl_grow _ (fun _ y _ hx => mem_sinsert_of_mem y hx) r l x h

theorem isSome_foldl_ainsert_nil {α : Type} [DecidableEq α]
    (l : List α) (m : List (α × List α)) (k : α)
    (h : (alookup m k).isSome) :
    (alookup (l.foldl (fun acc nt => ainsert nt [] acc) m) k).isSome := by
  induction l generalizing m with
  | nil => simpa using h
  | cons nt rest ih => exact ih _ (isSome_alookup_ainsert _ _ _ _ h)

/-- Every listed key has an entry after the empty-set initialisation fold
(used for `followSetsInit`). -/
theorem isSome_alookup_init {α : Type} [DecidableEq α]
    (l : List α) (m : List (α × List α)) (k : α) (hk : k ∈ l) :
    (alookup (l.foldl (fun acc nt => ainsert nt [] acc) m) k).isSome := by
  induction l generalizing m with
  | nil => cases hk
  | cons nt rest ih =>
    rcases List.mem_cons.mp hk with h | h
    · subst h
      exact isSome_foldl_ainsert_nil rest _ _ (by simp [alookup_ainsert_self])
    · exact ih _ h

/-! ### Monotonicity of the FOLLOW fixed-point loop (sets only grow) -/

theorem mem_followAddFirst (fs : List (Symbol × List Symbol))
    (beta : List Symbol) {current : List Symbol} {v : Symbol}
    (h : v ∈ current) : v ∈ followAddFirst fs beta current := by
  refine mem_foldl_grow _ ?_ _ _ _ h
  intro a y x hx
  by_cases hy : y.isEpsilon <;> simp [hy, mem_sinsert_of_mem, hx]

theorem mem_followNewSet (fs : List (Symbol × List Symbol)) (lhs sym : Symbol)
    (beta : List Symbol) (sets : List (Symbol × List Symbol)) {v : Symbol}
    (h : v ∈ (alookup sets sym).getD []) :
    v ∈ followNewSet fs lhs sym beta sets := by
  unfold followNewSet
  split
  · exact mem_sunion_left _ (mem_followAddFirst fs beta h)
  · exact mem_followAddFirst fs beta h

theorem followUpdate_mono (fs : List (Symbol × List Symbol)) (lhs sym : Symbol)
    (beta : List Symbol) (acc : List (Symbol × List Symbol) × Bool)
    (k v : Symbol) (h : v ∈ (alookup acc.1 k).getD []) :
    v ∈ (alookup (followUpdate fs lhs sym beta acc).1 k).getD [] := by
  unfold followUpdate
  by_cases hnt : sym.isNonterminal
  · rw [if_pos hnt]
    split
    · by_cases hk : k = sym
      · subst hk
        simp only [alookup_ainsert_self, Option.getD_some]
        exact mem_followNewSet fs lhs k beta acc.1 h
      · simp only [alookup_ainsert_ne _ _ _ _ hk]
        exact h
    · exact h
  · rw [if_neg hnt]
    exact h

theorem followStep_mono (fs : List (Symbol × List Symbol)) (lhs : Symbol) :
    ∀ (rhs : List Symbol) (acc : List (Symbol × List Symbol) × Bool)
      (k v : Symbol), v ∈ (alookup acc.1 k).getD [] →
      v ∈ (alookup (followStep fs lhs rhs acc).1 k).getD [] := by
  intro rhs
  induction rhs with
  | nil => intro acc k v h; simpa [followStep] using h
  | cons sym beta ih =>
    intro acc k v h
    rw [followStep]
    exact ih _ _ _ (followUpdate_mono fs lhs sym beta acc k v h)

theorem followPass_mono (fs : List (Symbol × List Symbol)) :
    ∀ (ps : List Production) (acc : List (Symbol × List Symbol) × Bool)
      (k v : Symbol), v ∈ (alookup acc.1 k).getD [] →
      v ∈ (alookup (ps.foldl
        (fun acc p => followStep fs p.lhs p.rhs acc) acc).1 k).getD [] := by
  intro ps
  induction ps with
  | nil => intro acc k v h; simpa using h
  | cons p rest ih =>
    intro acc k v h
    exact ih _ _ _ (followStep_mono fs p.lhs p.rhs acc k v h)

theorem followLoop_mono (g : Grammar) (fs : List (Symbol × List Symbol)) :
    ∀ (fuel : Nat) (sets : List (Symbol × List Symbol)) (k v : Symbol),
      v ∈ (alookup sets k).getD [] →
      v ∈ (alookup (followLoop g fs fuel sets) k).getD [] := by
  intro fuel
  induction fuel with
  | zero => intro sets k v h; simpa [followLoop] using h
  | succ n ih =>
    intro sets k v h
    rw [followLoop]
    have hpass := followPass_mono fs g.productions (sets, false) k v h
    split
    · exact ih _ _ _ hpass
    · exact hpass

/-! ### The shape of `Grammar::parse` failures (towards C8) -/

/-- A production line is malformed when it does not split into exactly two
parts around `->` (i.e. does not contain exactly one occurrence of the
separator) or its trimmed left part is empty. -/
def lineMalformed (l : List Char) : Bool :=
  match splitOnArrow l [] with
  | [p0, _] => (trimChars p0).isEmpty
  | _ => true

/-- The head-line count of the input, when there is a head line. -/
def countHead (lines : List (List Char)) : Option Nat :=
  match lines with
  | [] => none
  | l :: _ => parseUsize (trimChars l)

theorem parseLine_error_iff (l : List Char) :
    (∃ e, Grammar.parseProductionLine l = .error e) ↔ lineMalformed l = true := by
  unfold Grammar.parseProductionLine lineMalformed
  rcases hsp : splitOnArrow l [] with _ | ⟨p0, _ | ⟨p1, _ | rest⟩⟩ <;>
    simp only [hsp]
  · simp
  · simp
  · cases htr : trimChars p0 <;> simp [htr]
  · simp

theorem parseLine_error_kind (l : List Char) (e : GrammarError)
    (h : Grammar.parseProductionLine l = .error e) :
    ∃ s, e = .invalidProduction s := by
  unfold Grammar.parseProductionLine at h
  rcases hsp : splitOnArrow l [] with _ | ⟨p0, _ | ⟨p1, _ | rest⟩⟩ <;>
    simp only [hsp] at h
  · exact ⟨l, by simpa using h.symm⟩
  · exact ⟨l, by simpa using h.symm⟩
  · cases htr : trimChars p0 <;> simp only [htr] at h
    · exact ⟨str "Empty left-hand side", by simpa using h.symm⟩
    · simp at h
  · exact ⟨l, by simpa using h.symm⟩

theorem parseLines_error_iff (ls : List (List Char)) :
    (∃ e, Grammar.parseProductionLines ls = .error e) ↔
      ∃ l ∈ ls, lineMalformed l = true := by
  induction ls with
  | nil => simp [Grammar.parseProductionLines]
  | cons l rest ih =>
    rw [Grammar.parseProductionLines]
    cases hl : Grammar.parseProductionLine l
    case error e =>
      simp only [hl]
      constructor
      · intro _
        exact ⟨l, List.mem_cons_self l rest, (parseLine_error_iff l).mp ⟨e, hl⟩⟩
      · intro _
        exact ⟨e, rfl⟩
    case ok ps =>
      simp only [hl]
      cases hrest : Grammar.parseProductionLines rest
      case error e2 =>
        simp only [hrest]
        constructor
        · intro _
          obtain ⟨l2, hmem, hmal⟩ := ih.mp ⟨e2, hrest⟩
          exact ⟨l2, List.mem_cons_of_mem l hmem, hmal⟩
        · intro _
          exact ⟨e2, rfl⟩
      case ok rest2 =>
        simp only [hrest]
        constructor
        · rintro ⟨e, he⟩
          cases he
        · rintro ⟨l2, hmem, hmal⟩
          rcases List.mem_cons.mp hmem with hh | hh
          · subst hh
            obtain ⟨e, he⟩ := (parseLine_error_iff l2).mpr hmal
            rw [he] at hl
            cases hl
          · obtain ⟨e, he⟩ := ih.mpr ⟨l2, hh, hmal⟩
            rw [he] at hrest
            cases hrest

theorem parseLines_error_kind (ls : List (List Char)) (e : GrammarError)
    (h : Grammar.parseProductionLines ls = .error e) :
    ∃ s, e = .invalidProduction s := by
  induction ls with
  | nil => simp [Grammar.parseProductionLines] at h
  | cons l rest ih =>
    rw [Grammar.parseProductionLines] at h
    cases hl : Grammar.parseProductionLine l
    case error e1 =>
      rw [hl] at h
      cases h
      exact parseLine_error_kind l e hl
    case ok ps =>
      rw [hl] at h
      cases hrest : Grammar.parseProductionLines rest
      case error e2 =>
        rw [hrest] at h
        cases h
        exact ih hrest
      case ok rest2 =>
        rw [hrest] at h
        cases h

/-! ### Claim theorems -/

/-- C1: for the grammar `S -> AB / A -> aA d / B -> bBc e` both builds
succeed and the LL(1) recogniser accepts "d", "adbc", "ad", "aad", "dbc" and
rejects "a", "b", "abc", "dd"; but, contrary to the claim (and to the
repository's own integration tests `test_example2_both_ll1_and_slr1` and
`test_epsilon_productions`, which assert `slr1_parser.parse("d")` etc.), the
built SLR(1) recogniser rejects all five accept-strings: the `B → •ε` item is
never classified as a reduce item, so the `B → ε` reduction is unreachable. -/
theorem c1_ll1_ok_but_slr_rejects :
    (LL1Parser.build exGrammar1 exFirst1 exFollow1).isOk = true ∧
    exLL1.parse 1000 (str "d") = some true ∧
    exLL1.parse 1000 (str "adbc") = some true ∧
    exLL1.parse 1000 (str "ad") = some true ∧
    exLL1.parse 1000 (str "aad") = some true ∧
    exLL1.parse 1000 (str "dbc") = some true ∧
    exLL1.parse 1000 (str "a") = some false ∧
    exLL1.parse 1000 (str "b") = some false ∧
    exLL1.parse 1000 (str "abc") = some false ∧
    exLL1.parse 1000 (str "dd") = some false ∧
    (SLR1Parser.build exGrammar1 exFollow1).isOk = true ∧
    exSLR1.parse 1000 (str "d") = .ok false ∧
    exSLR1.parse 1000 (str "adbc") = .ok false ∧
    exSLR1.parse 1000 (str "ad") = .ok false ∧
    exSLR1.parse 1000 (str "aad") = .ok false ∧
    exSLR1.parse 1000 (str "dbc") = .ok false ∧
    exSLR1.parse 1000 (str "a") = .ok false ∧
    exSLR1.parse 1000 (str "b") = .ok false ∧
    exSLR1.parse 1000 (str "abc") = .ok false ∧
    exSLR1.parse 1000 (str "dd") = .ok false :=
  ⟨rfl, rfl, rfl, rfl, rfl, rfl, rfl, rfl, rfl, rfl, rfl, rfl, rfl, rfl, rfl,
    rfl, rfl, rfl, rfl, rfl⟩

/-- C2: contrary to the claim, an item over a production whose rhs is exactly
`[Epsilon]` with the dot at position 0 is NOT classified as a reduce item by
`Item::is_reduce_item` (the dot position 0 is strictly below `len(rhs) = 1`),
and `symbol_after_dot` returns `Some(Epsilon)` rather than nothing; only the
dot position `len(rhs)` itself is a reduce item. -/
theorem c2_epsilon_item_not_reduce (p : Production)
    (h : p.rhs = [Symbol.epsilon]) :
    (Item.mk p 0).isReduceItem = false ∧
    (Item.mk p 0).symbolAfterDot = some Symbol.epsilon ∧
    (Item.mk p p.rhs.length).isReduceItem = true := by
  refine ⟨?_, ?_, ?_⟩ <;> simp [Item.isReduceItem, Item.symbolAfterDot, h]

/-- C2 witness: the epsilon production `B → ε` of the claim's grammar. -/
theorem c2_witness :
    Production.rhs ⟨Symbol.nonterminal 'B', [Symbol.epsilon]⟩ = [Symbol.epsilon] ∧
    ((Item.mk ⟨Symbol.nonterminal 'B', [Symbol.epsilon]⟩ 0).isReduceItem = false ∧
      (Item.mk ⟨Symbol.nonterminal 'B', [Symbol.epsilon]⟩ 0).symbolAfterDot =
        some Symbol.epsilon ∧
      (Item.mk ⟨Symbol.nonterminal 'B', [Symbol.epsilon]⟩
        (Production.rhs ⟨Symbol.nonterminal 'B', [Symbol.epsilon]⟩).length).isReduceItem
        = true) :=
  ⟨rfl, c2_epsilon_item_not_reduce ⟨Symbol.nonterminal 'B', [Symbol.epsilon]⟩ rfl⟩

/-- C3 counterexample: in the grammar declared by `1 / S -> a a` the same
production `S → a` is recorded twice; when the second (equal) copy reaches
the already-occupied cell `(S, a)`, the build raises an `LL1Conflict` whose
two reported productions are identical — refuting the claim that recording a
production into a cell that already holds that very same production does not
raise a conflict. -/
theorem c3_counterexample_same_production_conflict :
    dupGrammar.productions =
      [⟨Symbol.nonterminal 'S', [Symbol.terminal 'a']⟩,
        ⟨Symbol.nonterminal 'S', [Symbol.terminal 'a']⟩] ∧
    LL1Parser.build dupGrammar dupFirst dupFollow =
      .error (.ll1Conflict (str "S") (str "a") (str "S → a") (str "S → a")) :=
  ⟨rfl, rfl⟩

/-- C3 amended: recording a production into table cell `(A, t)` raises an
`LL1Conflict` if and only if the cell is already occupied — by any
production, the very same one included; the occupant is never compared with
the candidate. -/
theorem c3_conflict_iff_cell_occupied
    (table : List ((Symbol × Symbol) × Production)) (key : Symbol × Symbol)
    (prod : Production) :
    (∃ e, ll1RecordCell table key prod = .error e) ↔
      (alookup table key).isSome = true := by
  cases h : alookup table key <;> simp [ll1RecordCell, h]

/-- C4 counterexample: the grammar `1 / A -> a` is accepted by
`Grammar::parse`, its nonterminal set is `{A}` (no `S` anywhere), and
`compute_follow_sets` panics on it (the `unwrap` of the absent
`FOLLOW(Nonterminal('S'))` entry), modelled by the `none` result — refuting
the claim that `compute_follow_sets` never panics on accepted grammars. -/
theorem c4_counterexample_missing_start :
    Grammar.parse noStartLines = some (.ok noStartGrammar) ∧
    noStartGrammar.nonterminals = [Symbol.nonterminal 'A'] ∧
    computeFollowSets noStartGrammar (computeFirstSets noStartGrammar) = none :=
  ⟨rfl, rfl, rfl⟩

/-- C4 amended: whenever the start symbol IS among the grammar's
nonterminals, `compute_follow_sets` returns without panicking and EndMarker
is in `FOLLOW(start)` — it is seeded by the initialisation before the
fixed-point loop runs, and the loop only ever grows the sets. -/
theorem c4_endmarker_in_follow_of_start (g : Grammar)
    (fs : List (Symbol × List Symbol)) (h : g.startSymbol ∈ g.nonterminals) :
    ∃ out, computeFollowSets g fs = some out ∧
      Symbol.endMarker ∈ (alookup out g.startSymbol).getD [] := by
  have hsome : (alookup (followSetsInit g) g.startSymbol).isSome :=
    isSome_alookup_init g.nonterminals [] g.startSymbol h
  obtain ⟨s, hs⟩ := Option.isSome_iff_exists.mp hsome
  refine ⟨followLoop g fs setFuel
    (ainsert g.startSymbol (sinsert Symbol.endMarker s) (followSetsInit g)),
    ?_, ?_⟩
  · simp only [computeFollowSets, hs]
  · apply followLoop_mono
    rw [alookup_ainsert_self]
    simpa using mem_sinsert_self Symbol.endMarker s

/-- C4 witness: the amended theorem applied to the grammar
`S -> AB / A -> aA d / B -> bBc e`. -/
theorem c4_witness :
    ∃ out, computeFollowSets exGrammar1 exFirst1 = some out ∧
      Symbol.endMarker ∈ (alookup out exGrammar1.startSymbol).getD [] :=
  c4_endmarker_in_follow_of_start exGrammar1 exFirst1 (by decide)

/-- C5: for the expression grammar `S -> S+T T / T -> T*F F / F -> (S) i`,
the LL(1) build fails with an `LL1Conflict` (left recursion), the SLR(1)
build succeeds, and the built recogniser accepts "i", "i+i", "i*i", "i+i*i",
"(i+i)*(i+i)", "((i))" and rejects "", "(", ")", "i+", "+i", "i++i",
"(i+i)*i)". -/
theorem c5_expression_grammar_results :
    (∃ a b c d, LL1Parser.build exGrammar2 exFirst2 exFollow2 =
      .error (.ll1Conflict a b c d)) ∧
    (SLR1Parser.build exGrammar2 exFollow2).isOk = true ∧
    exSLR2.parse 1000 (str "i") = .ok true ∧
    exSLR2.parse 1000 (str "i+i") = .ok true ∧
    exSLR2.parse 1000 (str "i*i") = .ok true ∧
    exSLR2.parse 1000 (str "i+i*i") = .ok true ∧
    exSLR2.parse 1000 (str "(i+i)*(i+i)") = .ok true ∧
    exSLR2.parse 1000 (str "((i))") = .ok true ∧
    exSLR2.parse 1000 (str "") = .ok false ∧
    exSLR2.parse 1000 (str "(") = .ok false ∧
    exSLR2.parse 1000 (str ")") = .ok false ∧
    exSLR2.parse 1000 (str "i+") = .ok false ∧
    exSLR2.parse 1000 (str "+i") = .ok false ∧
    exSLR2.parse 1000 (str "i++i") = .ok false ∧
    exSLR2.parse 1000 (str "(i+i)*i)") = .ok false :=
  ⟨⟨str "S", str "(", str "S → S+T", str "S → T", rfl⟩, rfl, rfl, rfl, rfl,
    rfl, rfl, rfl, rfl, rfl, rfl, rfl, rfl, rfl, rfl⟩

/-- C6: for the grammar `S -> A / A -> A b` (unguarded left recursion, no
terminating alternative) the LL(1) build fails with an `LL1Conflict` and the
SLR(1) build fails with a Reduce/Reduce conflict. -/
theorem c6_both_builds_fail :
    (∃ a b c d, LL1Parser.build exGrammar3 exFirst3 exFollow3 =
      .error (.ll1Conflict a b c d)) ∧
    (∃ s t p1 p2, SLR1Parser.build exGrammar3 exFollow3 =
      .error (.slr1ReduceReduceConflict s t p1 p2)) :=
  ⟨⟨str "A", str "b", str "A → A", str "A → b", rfl⟩,
    ⟨2, str "$", str "S → A", str "A → A", rfl⟩⟩

/-- The cyclic configuration of the diverging run of C7: state stack `[2, 0]`
(state 2 holds the reduce item `A → A•`, whose reduction at lookahead `d`
pops one state and GOTOs from state 0 on `A` straight back to state 2), so
the configuration reproduces itself and the loop never terminates. -/
theorem c7_cycle_aux (fuel : Nat) :
    slrParseLoop loopSLR.actionTable loopSLR.gotoTable fuel [2, 0]
      [Symbol.nonterminal 'A'] [Symbol.terminal 'd', Symbol.endMarker] =
      .outOfFuel := by
  induction fuel with
  | zero => rfl
  | succ n ih => exact ih

/-- C7: contrary to the claim that every built recogniser returns a boolean
on every input, the SLR(1) build succeeds on
`S -> AC / A -> A a / C -> ND / N -> e / D -> d` (the conflict that should
reject its `A → A` unit cycle goes undetected because the `N → •ε` item is
not a reduce item — the same slip as C2), and the resulting recogniser loops
forever on input "ad": after shifting `a` and reducing `A → a`, the
configuration repeats at every further step, so the run exhausts any amount
of fuel — the Rust `parse` never returns. -/
theorem c7_slr_parse_diverges :
    (SLR1Parser.build loopGrammar loopFollow).isOk = true ∧
    ∀ fuel, loopSLR.parse fuel (str "ad") = ParseOutcome.outOfFuel := by
  refine ⟨rfl, ?_⟩
  intro fuel
  rcases fuel with _ | fuel
  · rfl
  rcases fuel with _ | n
  · rfl
  · exact c7_cycle_aux n

/-- C9: whenever the reduce-recording step of the SLR(1) table construction
hits a cell that already holds Accept, the table is returned unchanged (the
Accept entry stays) and no conflict is raised. -/
theorem c9_reduce_onto_accept_kept (tbl : List ((Nat × Symbol) × Action))
    (key : Nat × Symbol) (prod : Production)
    (h : alookup tbl key = some Action.accept) :
    recordReduce tbl key prod = .ok tbl := by
  unfold recordReduce
  rw [h]

/-- C9 witness: a one-cell table holding Accept at `(0, $)`. -/
theorem c9_witness :
    recordReduce [((0, Symbol.endMarker), Action.accept)]
      (0, Symbol.endMarker) ⟨Symbol.nonterminal 'S', [Symbol.terminal 'a']⟩ =
      .ok [((0, Symbol.endMarker), Action.accept)] :=
  c9_reduce_onto_accept_kept _ _ _ rfl

/-- C10: when line 0 parses as `n` and more than `n + 1` lines are supplied,
`Grammar::parse` reads only lines `0 ..= n`; the extra trailing lines are
ignored and the result equals parsing the first `n + 1` lines alone. -/
theorem c10_extra_lines_ignored (l0 : List Char) (rest : List (List Char))
    (n : Nat) (h : parseUsize (trimChars l0) = some n)
    (hlen : n + 1 < (l0 :: rest).length) :
    Grammar.parse (l0 :: rest) = Grammar.parse ((l0 :: rest).take (n + 1)) := by
  have hrest : n ≤ rest.length := by
    simp only [List.length_cons] at hlen
    omega
  have htake : (l0 :: rest).take (n + 1) = l0 :: rest.take n := by
    simp [List.take_succ_cons]
  rw [htake]
  have hlen1 : ¬ (l0 :: rest).length < n + 1 := by
    simp only [List.length_cons]
    omega
  have hlen2 : ¬ (l0 :: rest.take n).length < n + 1 := by
    simp only [List.length_cons, List.length_take]
    omega
  by_cases hov : n + 1 < 2 ^ 64
  · simp only [Grammar.parse, h]
    rw [if_pos hov, if_pos hov, if_neg hlen1, if_neg hlen2, List.take_take,
      Nat.min_self]
  · simp only [Grammar.parse, h]
    rw [if_neg hov, if_neg hov]

/-- C8 counterexample: on the single line `18446744073709551615`
(`usize::MAX`), line 0 parses as the usize `2^64 - 1`, and `Grammar::parse`
then panics — the `n + 1` in `lines.len() < n + 1` overflows (debug), or
wraps so that the `&lines[1..=n]` slice is out of range (release) — instead
of returning the not-enough-lines error the claim requires for an input with
fewer than `n + 1` lines. -/
theorem c8_counterexample_usize_overflow :
    parseUsize (trimChars (str "18446744073709551615")) = some (2 ^ 64 - 1) ∧
    Grammar.parse [str "18446744073709551615"] = none ∧
    ∀ a b, Grammar.parse [str "18446744073709551615"] ≠
      some (.error (.notEnoughProductions a b)) := by
  refine ⟨rfl, rfl, ?_⟩
  intro a b h
  rw [show Grammar.parse [str "18446744073709551615"] = none from rfl] at h
  cases h

/-- C8 amended: the complete outcome characterisation of `Grammar::parse`.
It panics exactly when line 0 parses as a usize `n` with `n + 1` overflowing
(i.e. `n = usize::MAX`); the empty-input error arises exactly on an empty
line sequence or when the production lines produce zero productions; the
invalid-format error exactly when a head line exists but does not parse as a
usize; the not-enough-lines error exactly when `n + 1` does not overflow and
fewer than `n + 1` lines are supplied; the production-format error exactly
when some of the `n` production lines lacks exactly one `->` separator or
has an empty trimmed left side; and otherwise parsing succeeds. -/
theorem c8_parse_error_characterization (lines : List (List Char)) :
    (Grammar.parse lines = none ↔
      ∃ n, countHead lines = some n ∧ ¬ n + 1 < 2 ^ 64) ∧
    (Grammar.parse lines = some (.error .emptyInput) ↔
      lines = [] ∨ ∃ n, countHead lines = some n ∧ n + 1 < 2 ^ 64 ∧
        n + 1 ≤ lines.length ∧
        Grammar.parseProductionLines ((lines.drop 1).take n) = .ok []) ∧
    ((∃ s, Grammar.parse lines = some (.error (.invalidFormat s))) ↔
      lines ≠ [] ∧ countHead lines = none) ∧
    ((∃ a b, Grammar.parse lines = some (.error (.notEnoughProductions a b))) ↔
      ∃ n, countHead lines = some n ∧ n + 1 < 2 ^ 64 ∧
        lines.length < n + 1) ∧
    ((∃ s, Grammar.parse lines = some (.error (.invalidProduction s))) ↔
      ∃ n, countHead lines = some n ∧ n + 1 < 2 ^ 64 ∧
        n + 1 ≤ lines.length ∧
        ∃ l ∈ (lines.drop 1).take n, lineMalformed l = true) ∧
    ((∃ g, Grammar.parse lines = some (.ok g)) ↔
      ∃ n, countHead lines = some n ∧ n + 1 < 2 ^ 64 ∧
        n + 1 ≤ lines.length ∧
        ∃ p ps, Grammar.parseProductionLines ((lines.drop 1).take n) =
          .ok (p :: ps)) := by
  rcases lines with _ | ⟨l0, rest⟩
  · refine ⟨?_, ?_, ?_, ?_, ?_, ?_⟩ <;> simp [Grammar.parse, countHead]
  · cases hn : parseUsize (trimChars l0)
    · refine ⟨?_, ?_, ?_, ?_, ?_, ?_⟩ <;>
        simp [Grammar.parse, countHead, hn]
    case some n =>
      by_cases hov : n + 1 < 2 ^ 64
      · have hov2 : n + 1 < 18446744073709551616 := by simpa using hov
        by_cases hlt : rest.length < n
        · have hnot : ¬ n ≤ rest.length := by omega
          refine ⟨?_, ?_, ?_, ?_, ?_, ?_⟩ <;>
            simp [Grammar.parse, countHead, hn, hov2, hlt, hnot]
          omega
        · have hle : n ≤ rest.length := Nat.le_of_not_lt hlt
          cases hp : Grammar.parseProductionLines (rest.take n) with
          | error e =>
            obtain ⟨s, rfl⟩ := parseLines_error_kind _ e hp
            have hmal : ∃ l ∈ rest.take n, lineMalformed l = true :=
              (parseLines_error_iff _).mp ⟨_, hp⟩
            refine ⟨?_, ?_, ?_, ?_, ?_, ?_⟩ <;>
              simp [Grammar.parse, countHead, hn, hov2, hlt, hle, hp,
                List.drop_one]
            all_goals first | omega | exact hmal
          | ok prods =>
            have hnomal : ¬ ∃ l ∈ rest.take n, lineMalformed l = true := by
              intro hmal
              obtain ⟨e, he⟩ := (parseLines_error_iff _).mpr hmal
              rw [he] at hp
              cases hp
            have hall : ∀ x ∈ rest.take n, lineMalformed x = false := by
              intro x hx
              cases hb : lineMalformed x
              · rfl
              · exact absurd ⟨x, hx, hb⟩ hnomal
            cases prods with
            | nil =>
              refine ⟨?_, ?_, ?_, ?_, ?_, ?_⟩ <;>
                simp [Grammar.parse, Grammar.fromProductions, countHead, hn,
                  hov2, hlt, hle, hp, hall, List.drop_one]
              all_goals first | omega | exact hall
            | cons p ps =>
              refine ⟨?_, ?_, ?_, ?_, ?_, ?_⟩ <;>
                simp [Grammar.parse, Grammar.fromProductions, countHead, hn,
                  hov2, hlt, hle, hp, hall, List.drop_one]
              all_goals first | omega | exact hall
      · have hov2 : ¬ n + 1 < 18446744073709551616 := by simpa using hov
        refine ⟨?_, ?_, ?_, ?_, ?_, ?_⟩ <;>
          simp [Grammar.parse, countHead, hn, hov2]
        omega

/-- C8 witness: the characterisation applied to the single unparsable line
`"x"` yields the invalid-format error. -/
theorem c8_witness :
    ∃ s, Grammar.parse [str "x"] = some (.error (.invalidFormat s)) :=
  (c8_parse_error_characterization [str "x"]).2.2.1.mpr ⟨by decide, by decide⟩

/-- C10 witness: `["1", "S -> a", "zz"]` parses identically to its first two
lines. -/
theorem c10_witness :
    Grammar.parse [str "1", str "S -> a", str "zz"] =
      Grammar.parse ([str "1", str "S -> a", str "zz"].take 2) :=
  c10_extra_lines_ignored (str "1") [str "S -> a", str "zz"] 1 (by decide)
    (by decide)

end CFGP
